import Mathlib

/-!
Verification of the nduwa_sheep_backend pedigree/CRUD core.

Shallow embedding of `src/app/routes.py`, `src/app/lamb_routes.py` and the
data model of `src/app/models.py`.  The store is a list of animal records
plus a surrogate-id counter; each Flask route becomes a pure function from
a store and a parsed request to a result (HTTP status, new store, and any
created/returned payload).  External collaborators (werkzeug's
secure_filename, the filesystem write of the upload, SQL driver details)
are out of the modelled core, as the spec declares; the tag-uniqueness
constraint of the `sheep` table is modelled as the insert/commit-time
duplicate check that raises IntegrityError in the source.
-/

/-- ASCII lower-casing of one character, as Python's `str.lower` and SQL
`lower()` act on the ASCII tag strings of this system. -/
def lowerChar (c : Char) : Char :=
  if 'A' ≤ c && c ≤ 'Z' then Char.ofNat (c.toNat + 32) else c

/-- `s.lower()` over the characters of the string. -/
def lowerStr (s : String) : String := ⟨s.data.map lowerChar⟩

/-- The ASCII whitespace characters stripped by Python's `str.strip()`. -/
def isPySpace (c : Char) : Bool :=
  c == ' ' || c == '\t' || c == '\n' || c == '\r' || c == Char.ofNat 11 || c == Char.ofNat 12

/-- `s.strip()`: drop whitespace from both ends. -/
def stripStr (s : String) : String :=
  ⟨((s.data.dropWhile isPySpace).reverse.dropWhile isPySpace).reverse⟩

/-- Split a character list at every occurrence of `c` (`str.split(c)`). -/
def splitChar (c : Char) : List Char → List (List Char)
  | [] => [[]]
  | x :: xs =>
    let r := splitChar c xs
    if x == c then [] :: r
    else
      match r with
      | [] => [[x]]
      | g :: gs => (x :: g) :: gs

/-- Split a string at every occurrence of `c`. -/
def splitOnChar (c : Char) (s : String) : List String :=
  (splitChar c s.data).map (fun g => ⟨g⟩)

/-- Every character is an ASCII digit. -/
def allDigits (s : String) : Bool := s.data.all (fun c => c.isDigit)

/-- Numeric value of an ASCII digit string (`int(s)` on a digit-only string). -/
def digitsVal (s : String) : Nat := s.data.foldl (fun acc c => acc * 10 + (c.toNat - 48)) 0

/-- A calendar date as produced by `datetime.strptime(s, "%Y-%m-%d").date()`. -/
structure Date where
  year : Nat
  month : Nat
  day : Nat
deriving DecidableEq, Repr

/-- Length of a month, Gregorian rules, as `datetime.date` validates it. -/
def monthLen (y m : Nat) : Nat :=
  if m == 2 then
    if (y % 4 == 0 && y % 100 != 0) || y % 400 == 0 then 29 else 28
  else if m == 4 || m == 6 || m == 9 || m == 11 then 30
  else 31

/-- `datetime.strptime(s, "%Y-%m-%d")`: four-digit year, one-or-two-digit
month and day (CPython's `_strptime` regex), the whole string consumed,
and the resulting date validated by `datetime.date` (year at least 1,
day within the month). -/
def parseDateYMD (s : String) : Option Date :=
  match splitOnChar '-' s with
  | [ys, ms, ds] =>
    if ys.length == 4 && allDigits ys
        && (ms.length == 1 || ms.length == 2) && allDigits ms
        && (ds.length == 1 || ds.length == 2) && allDigits ds then
      let y := digitsVal ys
      let m := digitsVal ms
      let d := digitsVal ds
      if 1 ≤ y && 1 ≤ m && m ≤ 12 && 1 ≤ d && d ≤ monthLen y m then
        some ⟨y, m, d⟩
      else none
    else none
  | _ => none

/-- `datetime.fromisoformat(s).date()` on a date-only string as used by
`update_sheep`: strict `YYYY-MM-DD` with zero-padded month and day. -/
def parseIsoDate (s : String) : Option Date :=
  match splitOnChar '-' s with
  | [ys, ms, ds] =>
    if ys.length == 4 && allDigits ys
        && ms.length == 2 && allDigits ms
        && ds.length == 2 && allDigits ds then
      let y := digitsVal ys
      let m := digitsVal ms
      let d := digitsVal ds
      if 1 ≤ y && 1 ≤ m && m ≤ 12 && 1 ≤ d && d ≤ monthLen y m then
        some ⟨y, m, d⟩
      else none
    else none
  | _ => none

/-- One row of the `sheep` table (`models.py`, class `Sheep`).  The Python
column types map to: Integer ↦ Nat, String ↦ String / Option String,
Date ↦ Date, Boolean ↦ Bool / Option Bool, Float ↦ Option Rat (the
numeric value once Python's float(...) coercion has happened; no claim
depends on float rounding). -/
structure Animal where
  id : Nat
  tag_id : String
  dob : Date
  gender : String
  pregnant : Option Bool
  medical_records : Option String
  image : Option String
  weight : Option Rat
  breed : Option String
  is_lamb : Bool
  weaning_weight : Option Rat
  mother_id : Option Nat
  father_id : Option Nat
deriving DecidableEq, Repr

/-- The persistent store: the rows of the `sheep` table in insertion order,
plus the autoincrement counter that assigns surrogate ids. -/
structure Store where
  records : List Animal
  nextId : Nat
deriving DecidableEq, Repr

/-- `Sheep.query.get(i)` / `get_or_404`: primary-key lookup. -/
def findById (st : Store) (i : Nat) : Option Animal :=
  st.records.find? (fun r => r.id == i)

/-- `Sheep.query.filter_by(tag_id=t).first()`: exact, case-sensitive tag lookup. -/
def findByTagExact (st : Store) (t : String) : Option Animal :=
  st.records.find? (fun r => r.tag_id == t)

/-- `Sheep.query.filter(func.lower(Sheep.tag_id) == func.lower(t)).first()`:
case-insensitive tag lookup. -/
def findByTagCI (st : Store) (t : String) : Option Animal :=
  st.records.find? (fun r => lowerStr r.tag_id == lowerStr t)

/-- `routes.py::get_parent_id` — sheep-create parent resolution.  Falsy
input (absent or empty) yields no parent; otherwise an exact,
case-sensitive lookup with NO trimming; a missing tag raises ValueError
(modelled as `.error ()`), which `add_sheep` maps to 404. -/
def get_parent_id (st : Store) (tag : Option String) : Except Unit (Option Nat) :=
  match tag with
  | none => .ok none
  | some t =>
    if t == "" then .ok none
    else
      match findByTagExact st t with
      | some p => .ok (some p.id)
      | none => .error ()

/-- `lamb_routes.py::resolve_parent_id` — lamb-path parent resolution.
Falsy input yields `none`; otherwise the tag is trimmed and looked up
case-insensitively; a miss yields `none` silently. -/
def resolve_parent_id (st : Store) (t : String) : Option Nat :=
  if t == "" then none
  else
    match findByTagCI st (stripStr t) with
    | some p => some p.id
    | none => none

/-- `allowed_file` (identical in both route files): the filename has a dot
and its last extension, lowercased, is png, jpg or jpeg. -/
def allowed_file (filename : String) : Bool :=
  filename.data.contains '.'
    && ["png", "jpg", "jpeg"].contains (lowerStr ((splitOnChar '.' filename).getLast?.getD ""))

/-- The parsed body of `POST /sheep` (`routes.py::add_sheep`).  Each field
is `none` when the key is absent; form/JSON values are strings except
`weight`, carried as the numeric value that `float(data['weight'])`
produces, and `image`, the filename of the uploaded file if any. -/
structure SheepCreateReq where
  tag_id : Option String := none
  gender : Option String := none
  dob : Option String := none
  pregnant : Option String := none
  medical_records : Option String := none
  breed : Option String := none
  mother_id : Option String := none
  father_id : Option String := none
  is_lamb : Option String := none
  weight : Option Rat := none
  image : Option String := none
deriving Repr

/-- The parsed body of `POST /lambs` (`lamb_routes.py::add_lamb`).  The
route never reads `is_lamb` from the body, but a caller may send it; it
is kept here so theorems can quantify over it. -/
structure LambCreateReq where
  tag_id : Option String := none
  gender : Option String := none
  dob : Option String := none
  medical_records : Option String := none
  breed : Option String := none
  mother_id : Option String := none
  father_id : Option String := none
  is_lamb : Option String := none
  weight : Option Rat := none
  image : Option String := none
deriving Repr

/-- Outcome of a create route: HTTP status, the store after the request
(rolled back to the input store on every error path), and the created
record on success. -/
structure CreateResult where
  status : Nat
  store : Store
  created : Option Animal
deriving DecidableEq, Repr

/-- Python truthiness of an optional string field: absent or empty is falsy. -/
def falsy (o : Option String) : Bool := o.getD "" == ""

/-- `routes.py::add_sheep` after request parsing: required-field check,
strptime date check, parent resolution via `get_parent_id` (404 on
miss), image extension check (400 on a disallowed file), then insert;
the unique constraint on `tag_id` surfaces as IntegrityError ↦ 409 with
rollback. -/
def add_sheep (st : Store) (req : SheepCreateReq) : CreateResult :=
  if falsy req.tag_id || falsy req.gender || falsy req.dob then
    ⟨400, st, none⟩
  else
    match parseDateYMD (req.dob.getD "") with
    | none => ⟨400, st, none⟩
    | some dob =>
      match (if falsy req.mother_id then .ok none else get_parent_id st req.mother_id) with
      | .error _ => ⟨404, st, none⟩
      | .ok motherId =>
        match (if falsy req.father_id then .ok none else get_parent_id st req.father_id) with
        | .error _ => ⟨404, st, none⟩
        | .ok fatherId =>
          let imageCheck : Except Unit (Option String) :=
            match req.image with
            | none => .ok none
            | some f => if allowed_file f then .ok (some f) else .error ()
          match imageCheck with
          | .error _ => ⟨400, st, none⟩
          | .ok filename =>
            let tag := req.tag_id.getD ""
            if st.records.any (fun r => r.tag_id == tag) then
              ⟨409, st, none⟩
            else
              let newRec : Animal :=
                { id := st.nextId
                  tag_id := tag
                  dob := dob
                  gender := req.gender.getD ""
                  pregnant := some (lowerStr (req.pregnant.getD "false") == "true")
                  medical_records := some (req.medical_records.getD "")
                  image := filename
                  weight := req.weight
                  breed := req.breed
                  is_lamb := lowerStr (req.is_lamb.getD "false") == "true"
                  weaning_weight := none
                  mother_id := motherId
                  father_id := fatherId }
              ⟨201, ⟨st.records ++ [newRec], st.nextId + 1⟩, some newRec⟩

/-- `lamb_routes.py::add_lamb`: required-field and strptime date checks;
mother/father tags trimmed and looked up case-insensitively inline, a
miss returning 404; a disallowed image file is silently dropped (the
record keeps a null image); the tag is stored trimmed, `is_lamb` is
forced true, and a duplicate tag rolls back with status 400. -/
def add_lamb (st : Store) (req : LambCreateReq) : CreateResult :=
  if falsy req.tag_id || falsy req.gender || falsy req.dob then
    ⟨400, st, none⟩
  else
    match parseDateYMD (req.dob.getD "") with
    | none => ⟨400, st, none⟩
    | some dob =>
      let motherCheck : Except Unit (Option Nat) :=
        if falsy req.mother_id then .ok none
        else match findByTagCI st (stripStr (req.mother_id.getD "")) with
             | some p => .ok (some p.id)
             | none => .error ()
      match motherCheck with
      | .error _ => ⟨404, st, none⟩
      | .ok motherId =>
        let fatherCheck : Except Unit (Option Nat) :=
          if falsy req.father_id then .ok none
          else match findByTagCI st (stripStr (req.father_id.getD "")) with
               | some p => .ok (some p.id)
               | none => .error ()
        match fatherCheck with
        | .error _ => ⟨404, st, none⟩
        | .ok fatherId =>
          let filename : Option String :=
            match req.image with
            | some f => if allowed_file f then some f else none
            | none => none
          let tag := stripStr (req.tag_id.getD "")
          if st.records.any (fun r => r.tag_id == tag) then
            ⟨400, st, none⟩
          else
            let newRec : Animal :=
              { id := st.nextId
                tag_id := tag
                dob := dob
                gender := req.gender.getD ""
                pregnant := some false
                medical_records := some (req.medical_records.getD "")
                image := filename
                weight := req.weight
                breed := req.breed
                is_lamb := true
                weaning_weight := none
                mother_id := motherId
                father_id := fatherId }
            ⟨201, ⟨st.records ++ [newRec], st.nextId + 1⟩, some newRec⟩

/-- The parsed form of `PUT /sheep/{id}` (`routes.py::update_sheep`).
`weight`, `mother_id` and `father_id` are assigned to the row verbatim
in the source with no tag resolution or parsing; they are carried here
as the column-typed values the driver ends up storing. -/
structure SheepUpdateReq where
  tag_id : Option String := none
  gender : Option String := none
  dob : Option String := none
  pregnant : Option String := none
  weight : Option Rat := none
  breed : Option String := none
  medical_records : Option String := none
  mother_id : Option Nat := none
  father_id : Option Nat := none
  is_lamb : Option String := none
  image : Option String := none
deriving Repr

/-- The parsed body of `PUT /lambs/{id}` (`lamb_routes.py::update_lamb`).
A field is `none` when its key is absent; `weight` is the value of
`float(data['weight'])` when the key is present. -/
structure LambUpdateReq where
  tag_id : Option String := none
  dob : Option String := none
  medical_records : Option String := none
  mother_id : Option String := none
  father_id : Option String := none
  weight : Option Rat := none
  image : Option String := none
deriving Repr

/-- Outcome of an update or delete route: HTTP status and the store after
the request (the input store on every error path). -/
structure MutResult where
  status : Nat
  store : Store
deriving DecidableEq, Repr

/-- Commit of an in-place row update: the unique constraint on `tag_id`
fires when another row carries the same tag (IntegrityError). -/
def commitReplace (st : Store) (old updated : Animal) : Except Unit Store :=
  if st.records.any (fun r => r.id != old.id && r.tag_id == updated.tag_id) then
    .error ()
  else
    .ok ⟨st.records.map (fun r => if r.id == old.id then updated else r), st.nextId⟩

/-- `routes.py::update_sheep`: 404 when the id is absent; `tag_id`,
`gender` and `dob` are REQUIRED (400 when falsy); `dob` is reparsed with
`fromisoformat` (400 on failure); then every column except `image` and
`weaning_weight` is overwritten from the form — an absent optional field
overwrites with null (`pregnant` also nulls unless gender is female and
the field was sent, `is_lamb` falls back to false); the image is
replaced only when a file is sent; commit failure maps to 500 with
rollback. -/
def update_sheep (st : Store) (sheepId : Nat) (req : SheepUpdateReq) : MutResult :=
  match findById st sheepId with
  | none => ⟨404, st⟩
  | some old =>
    if falsy req.tag_id || falsy req.gender || falsy req.dob then
      ⟨400, st⟩
    else
      match parseIsoDate (req.dob.getD "") with
      | none => ⟨400, st⟩
      | some dob =>
        let gender := req.gender.getD ""
        let updated : Animal :=
          { id := old.id
            tag_id := req.tag_id.getD ""
            gender := gender
            dob := dob
            pregnant :=
              if lowerStr gender == "female" && req.pregnant.isSome then
                some (lowerStr (req.pregnant.getD "") == "true")
              else none
            weight := req.weight
            breed := req.breed
            medical_records := req.medical_records
            mother_id := req.mother_id
            father_id := req.father_id
            is_lamb :=
              match req.is_lamb with
              | some s => lowerStr s == "true"
              | none => false
            image := match req.image with
                     | some f => some f
                     | none => old.image
            weaning_weight := old.weaning_weight }
        match commitReplace st old updated with
        | .ok st2 => ⟨200, st2⟩
        | .error _ => ⟨500, st⟩

/-- `lamb_routes.py::update_lamb`: 404 when the id is absent, 400 when the
record is not a lamb; then a PARTIAL update — `tag_id`, `weight`,
`medical_records` overwrite only when their key is sent, a malformed
`dob` is silently ignored, `mother_id`/`father_id` are re-resolved via
`resolve_parent_id` with a miss returning 404 before commit (leaving
the store unchanged), and the image is replaced only when a file is
sent; a duplicate tag at commit escapes as an unhandled 500. -/
def update_lamb (st : Store) (lambId : Nat) (req : LambUpdateReq) : MutResult :=
  match findById st lambId with
  | none => ⟨404, st⟩
  | some old =>
    if !old.is_lamb then
      ⟨400, st⟩
    else
      let r1 := { old with
        tag_id := req.tag_id.getD old.tag_id
        weight := match req.weight with
                  | some w => some w
                  | none => old.weight
        medical_records := match req.medical_records with
                           | some m => some m
                           | none => old.medical_records }
      let r2 := { r1 with
        dob := match req.dob with
               | some s => match parseDateYMD s with
                           | some d => d
                           | none => r1.dob
               | none => r1.dob }
      let motherCheck : Except Unit (Option Nat) :=
        match req.mother_id with
        | none => .ok r2.mother_id
        | some mt => match resolve_parent_id st mt with
                     | some i => .ok (some i)
                     | none => .error ()
      match motherCheck with
      | .error _ => ⟨404, st⟩
      | .ok motherId =>
        let fatherCheck : Except Unit (Option Nat) :=
          match req.father_id with
          | none => .ok r2.father_id
          | some ft => match resolve_parent_id st ft with
                       | some i => .ok (some i)
                       | none => .error ()
        match fatherCheck with
        | .error _ => ⟨404, st⟩
        | .ok fatherId =>
          let r3 := { r2 with
            mother_id := motherId
            father_id := fatherId
            image := match req.image with
                     | some f => some f
                     | none => r2.image }
          match commitReplace st old r3 with
          | .ok st2 => ⟨200, st2⟩
          | .error _ => ⟨500, st⟩

/-- `routes.py::delete_sheep`: 404 when the id is absent, otherwise the
row is deleted outright — no cascade, nulling or reparenting of rows
that reference it as mother or father. -/
def delete_sheep (st : Store) (sheepId : Nat) : MutResult :=
  match findById st sheepId with
  | none => ⟨404, st⟩
  | some _ => ⟨200, ⟨st.records.filter (fun r => r.id != sheepId), st.nextId⟩⟩

/-- `lamb_routes.py::delete_lamb`: 404 when the id is absent, 400 when the
record is not a lamb, otherwise the row is deleted. -/
def delete_lamb (st : Store) (lambId : Nat) : MutResult :=
  match findById st lambId with
  | none => ⟨404, st⟩
  | some old =>
    if !old.is_lamb then ⟨400, st⟩
    else ⟨200, ⟨st.records.filter (fun r => r.id != lambId), st.nextId⟩⟩

/-- `sheep.mother_children` — the SQLAlchemy backref: every row whose
`mother_id` equals the given id, in table order. -/
def mother_children (st : Store) (i : Nat) : List Animal :=
  st.records.filter (fun r => r.mother_id == some i)

/-- `sheep.father_children` — every row whose `father_id` equals the
given id, in table order. -/
def father_children (st : Store) (i : Nat) : List Animal :=
  st.records.filter (fun r => r.father_id == some i)

/-- `sheep.mother.tag_id if sheep.mother else None`: the tag of the row
the given optional parent id points at, if any. -/
def parentTag (st : Store) (pid : Option Nat) : Option String :=
  match pid with
  | none => none
  | some i => (findById st i).map (fun p => p.tag_id)

/-- The family view of `routes.py::get_sheep_by_id`: resolved mother and
father tags, and the children tags built from the Python list
concatenation `sheep.mother_children + sheep.father_children`. -/
structure FamilyView where
  mother : Option String
  father : Option String
  children : List String
deriving DecidableEq, Repr

/-- The body of `GET /sheep/{id}` (`routes.py::get_sheep_by_id`). -/
structure SheepDetail where
  tag_id : String
  dob : Date
  gender : String
  family : FamilyView
deriving DecidableEq, Repr

/-- Outcome of a read route carrying a payload of type α; reads never
change the store. -/
structure ReadResult (α : Type) where
  status : Nat
  body : Option α
deriving DecidableEq, Repr

/-- `routes.py::get_sheep_by_id`: 404 when the id is absent; otherwise tag,
dob, gender and the family view whose children list is
`[c.tag_id for c in sheep.mother_children + sheep.father_children]`. -/
def get_sheep_by_id (st : Store) (sheepId : Nat) : ReadResult SheepDetail :=
  match findById st sheepId with
  | none => ⟨404, none⟩
  | some a =>
    ⟨200, some
      { tag_id := a.tag_id
        dob := a.dob
        gender := a.gender
        family :=
          { mother := parentTag st a.mother_id
            father := parentTag st a.father_id
            children :=
              (mother_children st a.id ++ father_children st a.id).map
                (fun c => c.tag_id) } }⟩

/-- The body of `GET /lambs/{id}` (`lamb_routes.py::get_lamb_by_id`). -/
structure LambDetail where
  tag_id : String
  dob : Date
  mother : Option String
  father : Option String
  siblings : List String
  medical_records : Option String
  image : Option String
deriving DecidableEq, Repr

/-- `lamb_routes.py::get_lamb_by_id`: 404 when the id is absent, 400 when
the record is not a lamb; otherwise the detail view (whose "siblings"
list is in fact built from the record's own children backrefs,
excluding itself, exactly as the source does). -/
def get_lamb_by_id (st : Store) (lambId : Nat) : ReadResult LambDetail :=
  match findById st lambId with
  | none => ⟨404, none⟩
  | some a =>
    if !a.is_lamb then ⟨400, none⟩
    else
      ⟨200, some
        { tag_id := a.tag_id
          dob := a.dob
          mother := parentTag st a.mother_id
          father := parentTag st a.father_id
          siblings :=
            ((mother_children st a.id ++ father_children st a.id).filter
              (fun s => s.id != a.id)).map (fun s => s.tag_id)
          medical_records := a.medical_records
          image := a.image }⟩

/-- `lamb_routes.py::get_lambs_by_parent`: the parent tag from the URL is
looked up case-insensitively (no trimming); a miss is 404; otherwise
every row with `is_lamb` true whose mother or father id equals the
parent's id, in table order. -/
def get_lambs_by_parent (st : Store) (parentTagId : String) : ReadResult (List Animal) :=
  match findByTagCI st parentTagId with
  | none => ⟨404, none⟩
  | some p =>
    ⟨200, some (st.records.filter
      (fun r => r.is_lamb && (r.mother_id == some p.id || r.father_id == some p.id)))⟩

/-! ### Helper lemmas about `List.find?`, and concrete example stores -/

theorem find?_of_mem_unique {α : Type} (p : α → Bool) (l : List α) (a : α)
    (ha : a ∈ l) (hpa : p a = true)
    (huniq : ∀ b ∈ l, p b = true → b = a) :
    l.find? p = some a := by
  induction l with
  | nil => cases ha
  | cons x xs ih =>
    rcases List.mem_cons.mp ha with h | h
    · subst h
      rw [List.find?_cons_of_pos _ hpa]
    · by_cases hx : p x = true
      · have hxa := huniq x (List.mem_cons_self _ _) hx
        subst hxa
        rw [List.find?_cons_of_pos _ hpa]
      · rw [List.find?_cons_of_neg _ (Bool.not_eq_true _ ▸ hx)]
        exact ih h fun b hb hpb => huniq b (List.mem_cons_of_mem _ hb) hpb

theorem find?_filter_of_imp {α : Type} (p q : α → Bool) (l : List α) (a : α)
    (h : l.find? p = some a) (himp : ∀ b, p b = true → q b = true) :
    (l.filter q).find? p = some a := by
  induction l with
  | nil => simp [List.find?] at h
  | cons x xs ih =>
    by_cases hx : p x = true
    · rw [List.find?_cons_of_pos _ hx] at h
      injection h with h
      subst h
      rw [List.filter_cons_of_pos (himp _ hx), List.find?_cons_of_pos _ hx]
    · rw [List.find?_cons_of_neg _ (Bool.not_eq_true _ ▸ hx)] at h
      cases hq : q x with
      | false => rw [List.filter_cons_of_neg (by simp [hq])]; exact ih h
      | true =>
        rw [List.filter_cons_of_pos hq,
            List.find?_cons_of_neg _ (Bool.not_eq_true _ ▸ hx)]
        exact ih h

theorem findById_replace (l : List Animal) (i : Nat) (old updated : Animal)
    (h : l.find? (fun r => r.id == i) = some old)
    (hid : updated.id = old.id) :
    (l.map (fun r => if r.id == old.id then updated else r)).find?
      (fun r => r.id == i) = some updated := by
  have hold : (old.id == i) = true := by
    have h2 := List.find?_some h
    exact h2
  induction l with
  | nil => simp [List.find?] at h
  | cons x xs ih =>
    cases hx : (x.id == i) with
    | true =>
      have hxz : x = old := by
        simpa [List.find?, hx] using h
      subst hxz
      have hu : (updated.id == i) = true := by
        rw [hid]
        exact hold
      simp [List.find?, hx, hu, List.map_cons]
    | false =>
      have h2 : xs.find? (fun r => r.id == i) = some old := by
        simpa [List.find?, hx] using h
      have hoi : old.id = i := eq_of_beq hold
      have hxo : (x.id == old.id) = false := by
        rw [hoi]
        exact hx
      have hxo2 : ¬ ((x.id == old.id) = true) := by
        simp [hxo]
      simp only [List.map_cons, if_neg hxo2]
      simp only [List.find?, hx]
      exact ih h2

theorem commitReplace_ok (st : Store) (old updated : Animal)
    (htag : updated.tag_id = old.tag_id)
    (huniq : ∀ r ∈ st.records, r.id ≠ old.id → r.tag_id ≠ old.tag_id) :
    commitReplace st old updated =
      .ok ⟨st.records.map (fun r => if r.id == old.id then updated else r), st.nextId⟩ := by
  unfold commitReplace
  rw [if_neg]
  intro hcon
  rw [List.any_eq_true] at hcon
  obtain ⟨r, hr, hp⟩ := hcon
  simp only [Bool.and_eq_true, bne_iff_ne, beq_iff_eq] at hp
  exact huniq r hr hp.1 (htag ▸ hp.2)

/-- A default row used to build the concrete stores of the examples. -/
def baseAnimal : Animal :=
  { id := 0
    tag_id := ""
    dob := ⟨2020, 1, 1⟩
    gender := "female"
    pregnant := some false
    medical_records := some ""
    image := none
    weight := none
    breed := none
    is_lamb := false
    weaning_weight := none
    mother_id := none
    father_id := none }

/-- A ewe stored with tag "M1" and id 1. -/
def ewe : Animal := { baseAnimal with id := 1, tag_id := "M1" }

/-- A lamb stored with tag "L1", id 2, mother id 1. -/
def lambRec : Animal :=
  { baseAnimal with id := 2, tag_id := "L1", is_lamb := true, mother_id := some 1 }

/-- Store holding just the ewe "M1". -/
def stA : Store := ⟨[ewe], 2⟩

/-- Store holding the ewe "M1" and her lamb "L1". -/
def stC : Store := ⟨[ewe, lambRec], 3⟩

/-- Store holding "A" (id 1) and a child "C" whose mother_id AND father_id
are both 1. -/
def stB : Store :=
  ⟨[{ baseAnimal with id := 1, tag_id := "A" },
    { baseAnimal with id := 2, tag_id := "C", mother_id := some 1, father_id := some 1 }], 3⟩

/-- An animal stored with tag "T1" and id 1. -/
def tOne : Animal := { baseAnimal with id := 1, tag_id := "T1" }

/-- Store holding one animal with tag "T1". -/
def stT1 : Store := ⟨[tOne], 2⟩

/-! ### Claims -/

/-- C1 counterexample: the sheep-create path does NOT resolve casing
variants.  With "M1" stored (id 1), the casing variant "m1" — trimmed
and case-folded equal to the stored tag — makes `get_parent_id` raise
(ValueError ↦ 404) instead of returning the animal's id, because
`routes.py::get_parent_id` matches tags exactly and case-sensitively. -/
theorem resolve_casing_counterexample :
    ewe ∈ stA.records ∧ lowerStr (stripStr "m1") = lowerStr ewe.tag_id ∧
    get_parent_id stA (some "m1") = Except.error () ∧
    get_parent_id stA (some "m1") ≠ Except.ok (some ewe.id) := by
  refine ⟨by decide, by decide, rfl, ?_⟩
  intro hcon
  rw [show get_parent_id stA (some "m1") = Except.error () from rfl] at hcon
  exact Except.noConfusion hcon

/-- C1 amended: trimmed case-insensitive resolution of any casing variant
holds on the lamb create/update path (`resolve_parent_id`), for an
animal that is the unique case-insensitive owner of its tag; on the
sheep-create path (`get_parent_id`) only the exactly equal tag
resolves. -/
theorem resolve_casing_amended :
    (∀ (st : Store) (A : Animal) (t : String),
      A ∈ st.records →
      t ≠ "" →
      lowerStr (stripStr t) = lowerStr A.tag_id →
      (∀ B ∈ st.records, lowerStr B.tag_id = lowerStr A.tag_id → B = A) →
      resolve_parent_id st t = some A.id)
    ∧
    (∀ (st : Store) (A : Animal),
      A ∈ st.records →
      A.tag_id ≠ "" →
      (∀ B ∈ st.records, B.tag_id = A.tag_id → B = A) →
      get_parent_id st (some A.tag_id) = Except.ok (some A.id)) := by
  constructor
  · intro st A t hA ht htl huniq
    have htne : ¬ ((t == "") = true) := by
      simp only [beq_iff_eq]
      exact ht
    have hfind : findByTagCI st (stripStr t) = some A := by
      unfold findByTagCI
      apply find?_of_mem_unique _ _ _ hA
      · show (lowerStr A.tag_id == lowerStr (stripStr t)) = true
        rw [htl]
        exact beq_self_eq_true _
      · intro b hb hpb
        apply huniq b hb
        have hb2 : lowerStr b.tag_id = lowerStr (stripStr t) := eq_of_beq hpb
        rw [hb2]
        exact htl
    unfold resolve_parent_id
    rw [if_neg htne, hfind]
  · intro st A hA hne huniq
    have hne2 : ¬ ((A.tag_id == "") = true) := by
      simp only [beq_iff_eq]
      exact hne
    have hfind : findByTagExact st A.tag_id = some A := by
      unfold findByTagExact
      apply find?_of_mem_unique _ _ _ hA
      · exact beq_self_eq_true _
      · intro b hb hpb
        exact huniq b hb (eq_of_beq hpb)
    simp only [get_parent_id]
    rw [if_neg hne2, hfind]

/-- C1 amended, witness: in the store holding only "M1" (id 1), the lamb
path resolves the casing variant " m1 " to id 1 and the sheep path
resolves the exact tag "M1" to id 1. -/
theorem resolve_casing_amended_witness :
    resolve_parent_id stA " m1 " = some ewe.id ∧
    get_parent_id stA (some "M1") = Except.ok (some ewe.id) := by
  constructor
  · exact resolve_casing_amended.1 stA ewe " m1 " (by decide) (by decide)
      (by decide) (by decide)
  · exact resolve_casing_amended.2 stA ewe (by decide) (by decide) (by decide)

/-- C2 counterexample: `update_sheep` is not a partial update.  With sheep
"M1" (id 1) stored, an update supplying only `weight` is rejected with
400 ("Missing required fields") and the store is unchanged, so the read
does not reflect the new weight; hence fields ARE required on update on
the sheep path. -/
theorem partial_update_counterexample :
    findById stA 1 = some ewe ∧
    update_sheep stA 1 { weight := some (40 : Rat) } = ⟨400, stA⟩ := ⟨rfl, rfl⟩

/-- C2 amended: partial-update semantics hold on the lamb path — an
update supplying only `weight` succeeds and every other stored field of
the lamb keeps its prior value — while on the sheep path `tag_id`,
`gender` and `dob` are required and their absence is rejected with 400
leaving the store unchanged. -/
theorem partial_update_amended :
    (∀ (st : Store) (i : Nat) (old : Animal) (w : Rat),
      findById st i = some old →
      old.is_lamb = true →
      (∀ r ∈ st.records, r.id ≠ old.id → r.tag_id ≠ old.tag_id) →
      (update_lamb st i { weight := some w }).status = 200 ∧
      findById (update_lamb st i { weight := some w }).store i =
        some { old with weight := some w })
    ∧
    (∀ (st : Store) (i : Nat) (old : Animal) (req : SheepUpdateReq),
      findById st i = some old →
      (falsy req.tag_id || falsy req.gender || falsy req.dob) = true →
      update_sheep st i req = ⟨400, st⟩) := by
  constructor
  · intro st i old w hfind hlamb huniq
    obtain ⟨oid, otag, odob, ogen, opreg, omed, oimg, owt, obr, olamb, owean, omom, odad⟩ := old
    change olamb = true at hlamb
    subst hlamb
    have hcommit := commitReplace_ok st
      ⟨oid, otag, odob, ogen, opreg, omed, oimg, owt, obr, true, owean, omom, odad⟩
      ⟨oid, otag, odob, ogen, opreg, omed, oimg, some w, obr, true, owean, omom, odad⟩
      rfl huniq
    have hrun : update_lamb st i { weight := some w } =
        ⟨200, ⟨st.records.map (fun r =>
          if r.id == oid then
            ⟨oid, otag, odob, ogen, opreg, omed, oimg, some w, obr, true, owean, omom, odad⟩
          else r), st.nextId⟩⟩ := by
      unfold update_lamb
      rw [hfind]
      simp only [Bool.not_true, Option.getD_none]
      rw [if_neg Bool.false_ne_true]
      rw [hcommit]
    refine ⟨by rw [hrun], ?_⟩
    rw [hrun]
    exact findById_replace st.records i
      ⟨oid, otag, odob, ogen, opreg, omed, oimg, owt, obr, true, owean, omom, odad⟩
      ⟨oid, otag, odob, ogen, opreg, omed, oimg, some w, obr, true, owean, omom, odad⟩
      hfind rfl
  · intro st i old req hfind hmiss
    unfold update_sheep
    rw [hfind]
    simp only [hmiss]
    exact if_pos trivial

/-- C2 amended, witness: in the store with ewe "M1" and lamb "L1" (id 2),
a weight-only lamb update succeeds and preserves all other fields;
the weight-only sheep update on "M1" is rejected with 400. -/
theorem partial_update_amended_witness :
    (update_lamb stC 2 { weight := some (40 : Rat) }).status = 200 ∧
    findById (update_lamb stC 2 { weight := some (40 : Rat) }).store 2 =
      some { lambRec with weight := some (40 : Rat) } ∧
    update_sheep stA 1 { weight := some (40 : Rat) } = ⟨400, stA⟩ := by
  refine ⟨?_, ?_, ?_⟩
  · exact (partial_update_amended.1 stC 2 lambRec 40 (by decide) (by decide) (by decide)).1
  · exact (partial_update_amended.1 stC 2 lambRec 40 (by decide) (by decide) (by decide)).2
  · exact partial_update_amended.2 stA 1 ewe { weight := some (40 : Rat) } (by decide) (by decide)

/-- C3 counterexample: on the lamb create path a duplicate tag is NOT
mapped to HTTP 409.  With "T1" stored, creating a lamb with the
case-sensitively equal tag "T1" returns status 400 (the
IntegrityError handler of `add_lamb` returns 400), though the store is
rolled back. -/
theorem duplicate_tag_counterexample :
    tOne ∈ stT1.records ∧ tOne.tag_id = "T1" ∧
    (add_lamb stT1 { tag_id := some "T1", gender := some "F", dob := some "2023-01-01" }).status
      = 400 ∧
    (add_lamb stT1 { tag_id := some "T1", gender := some "F", dob := some "2023-01-01" }).status
      ≠ 409 ∧
    (add_lamb stT1 { tag_id := some "T1", gender := some "F", dob := some "2023-01-01" }).store
      = stT1 := by
  exact ⟨by decide, rfl, rfl, by decide, rfl⟩

/-- C3 amended: creating an animal whose tag case-sensitively equals a
stored tag fails with the store rolled back on both paths, but the
status is 409 only on the sheep path; the lamb path returns 400. -/
theorem duplicate_tag_amended (st : Store)
    (hdup : (st.records.any (fun r => r.tag_id == "T1")) = true) :
    add_sheep st { tag_id := some "T1", gender := some "F", dob := some "2023-01-01" }
      = ⟨409, st, none⟩ ∧
    add_lamb st { tag_id := some "T1", gender := some "F", dob := some "2023-01-01" }
      = ⟨400, st, none⟩ := by
  have h1 : falsy (some "T1") = false := rfl
  have h2 : falsy (some "F") = false := rfl
  have h3 : falsy (some "2023-01-01") = false := rfl
  have h4 : falsy (none : Option String) = true := rfl
  have hdate : parseDateYMD "2023-01-01" = some ⟨2023, 1, 1⟩ := rfl
  have hstrip : stripStr "T1" = "T1" := rfl
  constructor
  · unfold add_sheep
    simp only [h1, h2, h3, h4, hdate, Bool.or_self, Bool.or_false, Bool.false_or,
      Option.getD_some, eq_self_iff_true, if_true]
    rw [if_neg Bool.false_ne_true]
    rw [if_pos hdup]
  · unfold add_lamb
    simp only [h1, h2, h3, h4, hdate, hstrip, Bool.or_self, Bool.or_false, Bool.false_or,
      Option.getD_some, eq_self_iff_true, if_true]
    rw [if_neg Bool.false_ne_true]
    rw [if_pos hdup]

/-- C3 amended, witness: in the store holding "T1", the duplicate sheep
create returns 409 and the duplicate lamb create returns 400, both with
the store unchanged. -/
theorem duplicate_tag_amended_witness :
    add_sheep stT1 { tag_id := some "T1", gender := some "F", dob := some "2023-01-01" }
      = ⟨409, stT1, none⟩ ∧
    add_lamb stT1 { tag_id := some "T1", gender := some "F", dob := some "2023-01-01" }
      = ⟨400, stT1, none⟩ :=
  duplicate_tag_amended stT1 (by decide)

/-- C4 confirmed: when the parent tag resolves case-insensitively to an
animal P, listing lambs by that tag returns 200 with exactly the stored
animals that are lambs and have P as mother or father (possibly the
empty list); when the tag resolves to no animal, it returns 404. -/
theorem lambs_by_parent_spec (st : Store) (t : String) :
    (∀ P, findByTagCI st t = some P →
      (get_lambs_by_parent st t).status = 200 ∧
      ∃ body, (get_lambs_by_parent st t).body = some body ∧
        ∀ a, a ∈ body ↔ (a ∈ st.records ∧ a.is_lamb = true ∧
          (a.mother_id = some P.id ∨ a.father_id = some P.id)))
    ∧
    (findByTagCI st t = none →
      (get_lambs_by_parent st t).status = 404 ∧ (get_lambs_by_parent st t).body = none) := by
  constructor
  · intro P hP
    have hrun : get_lambs_by_parent st t =
        ⟨200, some (st.records.filter
          (fun r => r.is_lamb && (r.mother_id == some P.id || r.father_id == some P.id)))⟩ := by
      unfold get_lambs_by_parent
      rw [hP]
    refine ⟨by rw [hrun], _, by rw [hrun], ?_⟩
    intro a
    simp only [List.mem_filter, Bool.and_eq_true, Bool.or_eq_true, beq_iff_eq, and_assoc]
  · intro hmiss
    have hrun : get_lambs_by_parent st t = ⟨404, none⟩ := by
      unfold get_lambs_by_parent
      rw [hmiss]
    exact ⟨by rw [hrun], by rw [hrun]⟩

/-- C4 witness: in the store with ewe "M1" (id 1) and her lamb, the
parent tag in either casing lists lambs with 200, and an unknown
parent tag yields 404. -/
theorem lambs_by_parent_spec_witness :
    (get_lambs_by_parent stC "m1").status = 200 ∧
    (get_lambs_by_parent stC "M1").status = 200 ∧
    (get_lambs_by_parent stC "zz").status = 404 :=
  ⟨((lambs_by_parent_spec stC "m1").1 ewe (by decide)).1,
   ((lambs_by_parent_spec stC "M1").1 ewe (by decide)).1,
   ((lambs_by_parent_spec stC "zz").2 (by decide)).1⟩

/-- C5 confirmed: on either create path, when tag and gender are present
but the dob string does not parse as `YYYY-MM-DD` (strptime), the
request is rejected with 400 and the store is unchanged — no record is
persisted. -/
theorem malformed_date_create (st : Store) (sreq : SheepCreateReq) (lreq : LambCreateReq)
    (hs1 : falsy sreq.tag_id = false) (hs2 : falsy sreq.gender = false)
    (hsd : parseDateYMD (sreq.dob.getD "") = none)
    (hl1 : falsy lreq.tag_id = false) (hl2 : falsy lreq.gender = false)
    (hld : parseDateYMD (lreq.dob.getD "") = none) :
    add_sheep st sreq = ⟨400, st, none⟩ ∧ add_lamb st lreq = ⟨400, st, none⟩ := by
  constructor
  · cases hdob : falsy sreq.dob with
    | false =>
      unfold add_sheep
      simp only [hs1, hs2, hdob, Bool.or_self, Bool.or_false]
      rw [if_neg Bool.false_ne_true]
      rw [hsd]
    | true =>
      unfold add_sheep
      simp only [hs1, hs2, hdob, Bool.or_true, Bool.false_or, Bool.or_false]
      exact if_pos trivial
  · cases hdob : falsy lreq.dob with
    | false =>
      unfold add_lamb
      simp only [hl1, hl2, hdob, Bool.or_self, Bool.or_false]
      rw [if_neg Bool.false_ne_true]
      rw [hld]
    | true =>
      unfold add_lamb
      simp only [hl1, hl2, hdob, Bool.or_true, Bool.false_or, Bool.or_false]
      exact if_pos trivial

/-- C5 witness: the malformed date "2023/01/01" makes both create routes
return 400 with nothing persisted. -/
theorem malformed_date_create_witness :
    add_sheep stA { tag_id := some "S9", gender := some "F", dob := some "2023/01/01" }
      = ⟨400, stA, none⟩ ∧
    add_lamb stA { tag_id := some "S9", gender := some "F", dob := some "2023/01/01" }
      = ⟨400, stA, none⟩ :=
  malformed_date_create stA
    { tag_id := some "S9", gender := some "F", dob := some "2023/01/01" }
    { tag_id := some "S9", gender := some "F", dob := some "2023/01/01" }
    rfl rfl rfl rfl rfl rfl

/-- C6 confirmed: deleting a parent P that some child C references as
mother or father succeeds with 200, leaves C present with an unchanged
record (its parent id field included, now dangling: P's id no longer
resolves), and performs no cascade, nulling or reparenting. -/
theorem delete_parent_leaves_child (st : Store) (P C : Animal)
    (hP : findById st P.id = some P)
    (hC : findById st C.id = some C)
    (hne : C.id ≠ P.id)
    (_href : C.mother_id = some P.id ∨ C.father_id = some P.id) :
    (delete_sheep st P.id).status = 200 ∧
    C ∈ (delete_sheep st P.id).store.records ∧
    findById (delete_sheep st P.id).store C.id = some C ∧
    findById (delete_sheep st P.id).store P.id = none := by
  have hrun : delete_sheep st P.id =
      ⟨200, ⟨st.records.filter (fun r => r.id != P.id), st.nextId⟩⟩ := by
    unfold delete_sheep
    rw [hP]
  refine ⟨by rw [hrun], ?_, ?_, ?_⟩
  · rw [hrun]
    have hmem : C ∈ st.records := List.mem_of_find?_eq_some hC
    rw [List.mem_filter]
    refine ⟨hmem, ?_⟩
    simp only [bne_iff_ne, ne_eq]
    exact hne
  · rw [hrun]
    show (st.records.filter (fun r => r.id != P.id)).find? (fun r => r.id == C.id) = some C
    apply find?_filter_of_imp _ _ _ _ hC
    intro b hb
    have hbid : b.id = C.id := eq_of_beq hb
    simp only [bne_iff_ne, ne_eq]
    rw [hbid]
    exact hne
  · rw [hrun]
    show (st.records.filter (fun r => r.id != P.id)).find? (fun r => r.id == P.id) = none
    rw [List.find?_eq_none]
    intro x hx
    rw [List.mem_filter] at hx
    obtain ⟨-, hxq⟩ := hx
    simp only [bne_iff_ne, ne_eq] at hxq
    simp only [beq_iff_eq]
    exact hxq

/-- C6 witness: deleting ewe "M1" (id 1), referenced as mother by lamb
"L1", leaves the lamb stored unchanged while id 1 no longer resolves. -/
theorem delete_parent_leaves_child_witness :
    (delete_sheep stC ewe.id).status = 200 ∧
    lambRec ∈ (delete_sheep stC ewe.id).store.records ∧
    findById (delete_sheep stC ewe.id).store lambRec.id = some lambRec ∧
    findById (delete_sheep stC ewe.id).store ewe.id = none :=
  delete_parent_leaves_child stC ewe lambRec (by decide) (by decide) (by decide)
    (Or.inl (by decide))

/-- C7 counterexample: the children list is a concatenation, not a
once-per-child union.  In the store where animal "C" has animal "A"
(id 1) as BOTH mother and father, the family view of "A" lists the tag
"C" twice. -/
theorem family_children_counterexample :
    (findById stB 2).map (fun c => (c.mother_id, c.father_id)) = some (some 1, some 1) ∧
    (get_sheep_by_id stB 1).body.map (fun d => d.family.children) = some ["C", "C"] ∧
    (get_sheep_by_id stB 1).body.map (fun d => d.family.children.count "C") = some 2 := by
  exact ⟨rfl, rfl, rfl⟩

/-- C7 amended: the by-id family view returns mother and father tags and a
children list equal to the CONCATENATION of the mother-children tags
and the father-children tags (so a child referencing the animal as both
parents appears twice); as a set it still equals the union: a tag is
listed iff some stored animal carries it and has the animal as mother
or father. -/
theorem family_children_amended (st : Store) (i : Nat) (a : Animal)
    (hfind : findById st i = some a) :
    (get_sheep_by_id st i).status = 200 ∧
    ∃ d, (get_sheep_by_id st i).body = some d ∧
      d.family.children =
        (mother_children st a.id ++ father_children st a.id).map (fun c => c.tag_id) ∧
      (∀ t, t ∈ d.family.children ↔
        ∃ c ∈ st.records, c.tag_id = t ∧
          (c.mother_id = some a.id ∨ c.father_id = some a.id)) ∧
      d.family.mother = parentTag st a.mother_id ∧
      d.family.father = parentTag st a.father_id := by
  have hrun : get_sheep_by_id st i =
      ⟨200, some
        { tag_id := a.tag_id
          dob := a.dob
          gender := a.gender
          family :=
            { mother := parentTag st a.mother_id
              father := parentTag st a.father_id
              children :=
                (mother_children st a.id ++ father_children st a.id).map
                  (fun c => c.tag_id) } }⟩ := by
    unfold get_sheep_by_id
    rw [hfind]
  refine ⟨by rw [hrun], _, by rw [hrun], rfl, ?_, rfl, rfl⟩
  intro t
  simp only [List.mem_map, List.mem_append, mother_children, father_children,
    List.mem_filter, beq_iff_eq]
  constructor
  · rintro ⟨c, hc, rfl⟩
    rcases hc with ⟨hm, hmid⟩ | ⟨hm, hfid⟩
    · exact ⟨c, hm, rfl, Or.inl hmid⟩
    · exact ⟨c, hm, rfl, Or.inr hfid⟩
  · rintro ⟨c, hm, rfl, hor⟩
    rcases hor with hmid | hfid
    · exact ⟨c, Or.inl ⟨hm, hmid⟩, rfl⟩
    · exact ⟨c, Or.inr ⟨hm, hfid⟩, rfl⟩

/-- C7 amended, witness: the family view of ewe "M1" (id 1) lists exactly
her lamb "L1" once. -/
theorem family_children_amended_witness :
    (get_sheep_by_id stC 1).status = 200 ∧
    (get_sheep_by_id stC 1).body.map (fun d => d.family.children) = some ["L1"] := by
  have h := family_children_amended stC 1 ewe (by decide)
  obtain ⟨hs, d, hbody, hch, -, -⟩ := h
  refine ⟨hs, ?_⟩
  rw [hbody]
  rw [show (some d).map (fun x => x.family.children) = some d.family.children from rfl]
  rw [hch]
  decide

/-- The record created by `add_lamb` for tag "L9", gender "F", dob
2023-01-01, no parents, with the disallowed image silently dropped. -/
def lambNoImage (st : Store) : Animal :=
  { id := st.nextId
    tag_id := "L9"
    dob := ⟨2023, 1, 1⟩
    gender := "F"
    pregnant := some false
    medical_records := some ""
    image := none
    weight := none
    breed := none
    is_lamb := true
    weaning_weight := none
    mother_id := none
    father_id := none }

/-- C8 counterexample: on the sheep create path an image with a
disallowed extension does NOT degrade to a null image reference — the
whole create fails with 400 and nothing is persisted
(`routes.py::add_sheep` returns "Invalid image format"). -/
theorem upload_degrade_counterexample :
    allowed_file "virus.exe" = false ∧
    add_sheep stA { tag_id := some "S2", gender := some "F", dob := some "2023-01-01", image := some "virus.exe" }
      = ⟨400, stA, none⟩ := ⟨rfl, rfl⟩

/-- C8 amended: only the lamb create path degrades gracefully — a
disallowed image file is silently dropped and the record is created
with a null image — while the sheep create path rejects the request
with 400 and persists nothing. -/
theorem upload_degrade_amended (st : Store) (f : String)
    (hbad : allowed_file f = false)
    (hfresh : (st.records.any (fun r => r.tag_id == "L9")) = false) :
    (add_lamb st { tag_id := some "L9", gender := some "F", dob := some "2023-01-01", image := some f } =
      ⟨201, ⟨st.records ++ [lambNoImage st], st.nextId + 1⟩, some (lambNoImage st)⟩)
    ∧
    add_sheep st { tag_id := some "S9", gender := some "F", dob := some "2023-01-01", image := some f } = ⟨400, st, none⟩ := by
  constructor
  · unfold add_lamb lambNoImage
    simp only [show falsy (some "L9") = false from rfl, show falsy (some "F") = false from rfl,
      show falsy (some "2023-01-01") = false from rfl,
      show falsy (none : Option String) = true from rfl,
      show parseDateYMD "2023-01-01" = some ⟨2023, 1, 1⟩ from rfl,
      show stripStr "L9" = "L9" from rfl, hbad, hfresh, Option.getD_some,
      Bool.or_self, Bool.or_false, eq_self_iff_true, if_true, Option.getD_none,
      if_false, Bool.false_eq_true]
  · unfold add_sheep
    simp only [show falsy (some "S9") = false from rfl, show falsy (some "F") = false from rfl,
      show falsy (some "2023-01-01") = false from rfl,
      show falsy (none : Option String) = true from rfl,
      show parseDateYMD "2023-01-01" = some ⟨2023, 1, 1⟩ from rfl, hbad, Option.getD_some,
      Bool.or_self, Bool.or_false, eq_self_iff_true, if_true, Option.getD_none,
      if_false, Bool.false_eq_true]

/-- C8 amended, witness: with the disallowed file "virus.exe", the lamb
create succeeds with a null image while the sheep create fails with
400. -/
theorem upload_degrade_amended_witness :
    (add_lamb stA { tag_id := some "L9", gender := some "F", dob := some "2023-01-01", image := some "virus.exe" } =
      ⟨201, ⟨stA.records ++ [lambNoImage stA], stA.nextId + 1⟩, some (lambNoImage stA)⟩)
    ∧
    add_sheep stA { tag_id := some "S9", gender := some "F", dob := some "2023-01-01", image := some "virus.exe" } = ⟨400, stA, none⟩ :=
  upload_degrade_amended stA "virus.exe" rfl rfl

/-- C9 confirmed: each lamb-scoped by-id operation (read, update, delete)
applied to an existing animal that is not a lamb fails with 400
("Not a lamb") and leaves the store unchanged. -/
theorem lamb_scope_guard (st : Store) (i : Nat) (a : Animal) (req : LambUpdateReq)
    (hfind : findById st i = some a)
    (hnot : a.is_lamb = false) :
    get_lamb_by_id st i = ⟨400, none⟩ ∧
    update_lamb st i req = ⟨400, st⟩ ∧
    delete_lamb st i = ⟨400, st⟩ := by
  refine ⟨?_, ?_, ?_⟩
  · unfold get_lamb_by_id
    rw [hfind]
    simp only [hnot, Bool.not_false, eq_self_iff_true, if_true]
  · unfold update_lamb
    rw [hfind]
    simp only [hnot, Bool.not_false, eq_self_iff_true, if_true]
  · unfold delete_lamb
    rw [hfind]
    simp only [hnot, Bool.not_false, eq_self_iff_true, if_true]

/-- C9 witness: ewe "M1" (id 1) is not a lamb; the three lamb-scoped
operations on id 1 all return 400 and leave the store as it was. -/
theorem lamb_scope_guard_witness :
    get_lamb_by_id stA 1 = ⟨400, none⟩ ∧
    update_lamb stA 1 {} = ⟨400, stA⟩ ∧
    delete_lamb stA 1 = ⟨400, stA⟩ :=
  lamb_scope_guard stA 1 ewe {} rfl rfl

/-- C10 confirmed: whatever branch of `add_lamb` produces a created
record, that record has `is_lamb` forced to true and its tag equal to
the supplied tag with surrounding whitespace stripped — the request's
own `is_lamb` field is never consulted. -/
theorem lamb_create_invariant (st : Store) (req : LambCreateReq) (a : Animal)
    (hc : (add_lamb st req).created = some a) :
    a.is_lamb = true ∧ a.tag_id = stripStr (req.tag_id.getD "") := by
  unfold add_lamb at hc
  repeat' first
    | (exfalso; simp at hc; done)
    | split at hc
    | dsimp only at hc
  all_goals (simp only [Option.some_inj] at hc; subst hc; exact ⟨rfl, rfl⟩)

/-- The record `add_lamb` creates in the store holding only ewe "M1" for
the request with tag " L2 " (whitespace-padded) and is_lamb sent as
"false". -/
def lambTwo : Animal :=
  { id := 2
    tag_id := "L2"
    dob := ⟨2023, 1, 1⟩
    gender := "F"
    pregnant := some false
    medical_records := some ""
    image := none
    weight := none
    breed := none
    is_lamb := true
    weaning_weight := none
    mother_id := none
    father_id := none }

/-- C10 witness: creating a lamb with tag " L2 " and is_lamb sent as
"false" stores a record with the trimmed tag "L2" and is_lamb true. -/
theorem lamb_create_invariant_witness :
    lambTwo.is_lamb = true ∧ lambTwo.tag_id = stripStr ((some " L2 ").getD "") :=
  lamb_create_invariant stA
    { tag_id := some " L2 ", gender := some "F", dob := some "2023-01-01", is_lamb := some "false" }
    lambTwo rfl
